import Mathlib

/-!
Verification development for the git metadata detection and reference
rewriting logic of `util/gitutil/detectgit.go`.

Modelling conventions:
* Go strings are Lean `String` (a structure over `List Char`); the Go string
  helpers used by the source (`strings.SplitN`, `strings.Split`,
  `strings.Replace`, `strings.TrimSuffix`, `strings.Join`, `path.Clean`,
  `path.Join`, `filepath.IsAbs`) are embedded below on `List Char` /
  `List String`.
* Each external `git` command invocation is modelled by its raw captured
  output, an `Option String` where `none` means the command returned an
  error (`cmd.Output()` failing).
* `filepath.ToSlash` / `filepath.FromSlash` are the identity on a POSIX
  system (the path separator already is `/`); they are kept as named
  identity functions so call sites line up with the source.
* Go errors are an inductive `GitErr`; `errors.Wrapf` only adds message
  text around a cause, so wrapping is modelled as propagating the cause.
-/

namespace Gitutil

/-- Whether the first list is a prefix of the second (Go `strings.HasPrefix`
on character lists). -/
def listStartsWith : List Char → List Char → Bool
  | [], _ => true
  | _ :: _, [] => false
  | p :: ps, c :: cs => p == c && listStartsWith ps cs

/-- Go `strings.SplitN(s, sep, 2)` for non-empty `sep`, presented as the
pieces before and after the first occurrence of `sep`; `none` when `sep`
does not occur (in which case Go returns the one-element slice `[s]`). -/
def breakOnL (sep : List Char) : List Char → Option (List Char × List Char)
  | [] => none
  | c :: cs =>
    if listStartsWith sep (c :: cs) then some ([], (c :: cs).drop sep.length)
    else
      match breakOnL sep cs with
      | some (pre, post) => some (c :: pre, post)
      | none => none

/-- Go `strings.Replace(s, a, b, 1)` for one-character patterns: replace the
first occurrence of `a` by `b`. -/
def replaceFirstC (a b : Char) : List Char → List Char
  | [] => []
  | c :: cs => if c == a then b :: cs else c :: replaceFirstC a b cs

/-- Character membership in a character list (used to state side
conditions on inputs). -/
def containsC (a : Char) : List Char → Bool
  | [] => false
  | c :: cs => c == a || containsC a cs

/-- Go `strings.HasSuffix`. -/
def isSuffixL (suf l : List Char) : Bool :=
  listStartsWith suf.reverse l.reverse

/-- Go `strings.TrimSuffix`. -/
def trimSuffixL (suf l : List Char) : List Char :=
  if isSuffixL suf l then l.take (l.length - suf.length) else l

/-- Go `strings.Split(s, sep)` for a one-character separator, on character
lists.  `strings.Split("", sep) = [""]`, hence the base case. -/
def splitOnCharL (sep : Char) : List Char → List (List Char)
  | [] => [[]]
  | c :: cs =>
    if c == sep then [] :: splitOnCharL sep cs
    else
      match splitOnCharL sep cs with
      | g :: gs => (c :: g) :: gs
      | [] => [[c]]

/-- Go `strings.Split(s, sep)` for a one-character separator. -/
def splitChar (sep : Char) (s : String) : List String :=
  (splitOnCharL sep s.data).map (fun l => String.mk l)

/-- The segment comparison loop of `gitRelDir`: every segment of the base
path equals the corresponding segment of the queried path (the Go loop
returns early at the first mismatch; running off the end of the second
list cannot happen behind the length guard and is `false` here). -/
def prefixSegsMatch : List String → List String → Bool
  | [], _ => true
  | _ :: _, [] => false
  | a :: as, b :: bs => a == b && prefixSegsMatch as bs

/-- Go `strings.Join(parts, sep)`. -/
def goJoin (sep : String) : List String → String
  | [] => ""
  | [x] => x
  | x :: xs => x ++ sep ++ goJoin sep xs

/-- Go `strings.SplitN(s, "\n", 2)[0]`: the text before the first newline,
or the whole string when it has no newline. -/
def firstLine (s : String) : String :=
  match breakOnL (String.data "\n") s.data with
  | some (pre, _) => String.mk pre
  | none => s

/-- Go `filepath.IsAbs` on POSIX: the path starts with `/`. -/
def isAbs (p : String) : Bool :=
  match p.data with
  | [] => false
  | c :: _ => c == '/'

/-- Go `filepath.ToSlash`: identity on POSIX (separator is already `/`). -/
def toSlash (s : String) : String := s

/-- Go `filepath.FromSlash`: identity on POSIX. -/
def fromSlash (s : String) : String := s

/-- Segment processing loop of Go `path.Clean`, which applies the documented
rules: drop empty and `.` elements, let `..` eliminate the preceding
non-`..` element, and drop `..` elements at the root of a rooted path.
The accumulator holds the kept segments in reverse order. -/
def cleanSegsAux (rooted : Bool) : List String → List String → List String
  | acc, [] => acc
  | acc, seg :: rest =>
    if seg = "" || seg = "." then cleanSegsAux rooted acc rest
    else if seg = ".." then
      match acc with
      | [] => cleanSegsAux rooted (if rooted then [] else [".."]) rest
      | a :: as =>
        if a = ".." then cleanSegsAux rooted (".." :: a :: as) rest
        else cleanSegsAux rooted as rest
    else cleanSegsAux rooted (seg :: acc) rest

/-- Go `path.Clean`: shortest lexically-equivalent path; `"."` for the
empty result, and a leading `/` is preserved for rooted paths. -/
def pathClean (p : String) : String :=
  if p = "" then "."
  else
    let rooted := isAbs p
    let segs := splitChar '/' p
    let stack := (cleanSegsAux rooted [] segs).reverse
    let out := goJoin "/" stack
    if rooted then (if out = "" then "/" else "/" ++ out)
    else (if out = "" then "." else out)

/-- Go `path.Join(a, b)`: empty elements are skipped, the rest are joined
with `/` and the result is cleaned; two empty arguments give `""`. -/
def pathJoin (a b : String) : String :=
  if a = "" && b = "" then ""
  else if a = "" then pathClean b
  else if b = "" then pathClean a
  else pathClean (a ++ "/" ++ b)

/-- Errors of the package (`detectgit.go` sentinel errors plus the ad-hoc
ones built with `errors.New` / `errors.Wrap`). -/
inductive GitErr
  | noGitBinary
  | notAGitDir
  | baseDirDetect
  | baseDirNoOutput
  | couldNotDetectRemote
  | couldNotDetectGitHash
  | couldNotDetectGitShortHash
  | couldNotDetectGitBranch
  | tagsDetect
  | pathResolution
  | baseNotAbs
  | nonRelPath
deriving DecidableEq, Repr

/-- `ParseGitRemoteURL` value computation: remove the transport
(`SplitN(s, "://", 2)` keeping the second part when it exists), remove the
user info (`SplitN(s, "@", 2)` keeping the second part when it exists),
replace the first `:` by `/`, and trim a trailing `.git`. -/
def parseGitRemoteURLCore (gitURL : String) : String :=
  let s0 := gitURL.data
  let s1 :=
    match breakOnL (String.data "://") s0 with
    | some p => p.2
    | none => s0
  let s2 :=
    match breakOnL (String.data "@") s1 with
    | some p => p.2
    | none => s1
  let s3 := replaceFirstC ':' '/' s2
  let s4 := trimSuffixL (String.data ".git") s3
  String.mk s4

/-- Go `ParseGitRemoteURL`: same value, paired with the error slot of the Go
signature — every return in the source is `return s, nil`, so the result is
always `Except.ok`. -/
def ParseGitRemoteURL (gitURL : String) : Except GitErr String :=
  Except.ok (parseGitRemoteURLCore gitURL)

/-- `GitMetadata`: the record assembled by `Metadata` (one field per struct
field of the Go type; `GitURL` is the canonical URL). -/
structure GitMetadata where
  BaseDir : String
  RelDir : String
  RemoteURL : String
  GitURL : String
  Hash : String
  ShortHash : String
  Branch : List String
  Tags : List String
  Timestamp : String
deriving DecidableEq, Repr

/-- `GitMetadata.Clone`: the fields the Go method copies are copied; the
fields absent from the Go composite literal (`RemoteURL`, `ShortHash`,
`Timestamp`) get the Go zero value, the empty string. -/
def GitMetadata.Clone (gm : GitMetadata) : GitMetadata :=
  { BaseDir := gm.BaseDir
    RelDir := gm.RelDir
    GitURL := gm.GitURL
    Hash := gm.Hash
    Branch := gm.Branch
    Tags := gm.Tags
    RemoteURL := ""
    ShortHash := ""
    Timestamp := "" }

/-- Raw facts supplied by the external layer for one `Metadata` call: the
captured output of each `git` command run against the queried directory
(`none` = the command failed), whether a git binary is available, and the
absolute symlink-resolved form of the queried directory (`none` = the
`filepath.Abs` / `filepath.EvalSymlinks` step inside `gitRelDir` failed). -/
structure RawFacts where
  gitBinaryOk : Bool
  statusOut : Option String
  baseDirOut : Option String
  remoteOut : Option String
  hashOut : Option String
  shortHashOut : Option String
  branchOut : Option String
  tagsOut : Option String
  timestampOut : Option String
  absEval : Option String
deriving Repr

/-- Modelled from the spec: `detectGitBinary` is defined elsewhere in the
package (not in this repository slice); per the spec the assembler fails
with the no-binary error when no version-control binary is available. -/
def detectGitBinary (ok : Bool) : Except GitErr Unit :=
  if ok then Except.ok () else Except.error GitErr.noGitBinary

/-- `detectIsGitDir`: `git status` failing means the directory is not a git
directory. -/
def detectIsGitDir (statusOut : Option String) : Except GitErr Unit :=
  match statusOut with
  | none => Except.error GitErr.notAGitDir
  | some _ => Except.ok ()

/-- `detectGitBaseDir`: first line of `git rev-parse --show-toplevel`;
a command error or empty output is an error. -/
def detectGitBaseDir (o : Option String) : Except GitErr String :=
  match o with
  | none => Except.error GitErr.baseDirDetect
  | some out =>
    if out = "" then Except.error GitErr.baseDirNoOutput
    else Except.ok (firstLine out)

/-- `detectGitRemoteURL`: first line of
`git config --get remote.origin.url`; a command error or empty output is
`ErrCouldNotDetectRemote`. -/
def detectGitRemoteURL (o : Option String) : Except GitErr String :=
  match o with
  | none => Except.error GitErr.couldNotDetectRemote
  | some out =>
    if out = "" then Except.error GitErr.couldNotDetectRemote
    else Except.ok (firstLine out)

/-- `detectGitHash`: first line of `git rev-parse HEAD`. -/
def detectGitHash (o : Option String) : Except GitErr String :=
  match o with
  | none => Except.error GitErr.couldNotDetectGitHash
  | some out =>
    if out = "" then Except.error GitErr.couldNotDetectGitHash
    else Except.ok (firstLine out)

/-- `detectGitShortHash`: first line of `git rev-parse --short=8 HEAD`. -/
def detectGitShortHash (o : Option String) : Except GitErr String :=
  match o with
  | none => Except.error GitErr.couldNotDetectGitShortHash
  | some out =>
    if out = "" then Except.error GitErr.couldNotDetectGitShortHash
    else Except.ok (firstLine out)

/-- `detectGitBranch`: `git rev-parse --abbrev-ref HEAD` output split on
newlines; empty output gives `nil` with no error. -/
def detectGitBranch (o : Option String) : Except GitErr (List String) :=
  match o with
  | none => Except.error GitErr.couldNotDetectGitBranch
  | some out =>
    if out = "" then Except.ok []
    else Except.ok (splitChar '\n' out)

/-- `detectGitTags`: `git describe --exact-match --tags` output split on
newlines; empty output gives `nil` with no error. -/
def detectGitTags (o : Option String) : Except GitErr (List String) :=
  match o with
  | none => Except.error GitErr.tagsDetect
  | some out =>
    if out = "" then Except.ok []
    else Except.ok (splitChar '\n' out)

/-- `detectGitTimestamp`: first line of `git log -1 --format=%ct`; a
command error or empty output yields `"0"` with a nil error — this
function never fails. -/
def detectGitTimestamp (o : Option String) : Except GitErr String :=
  match o with
  | none => Except.ok "0"
  | some out =>
    if out = "" then Except.ok "0"
    else Except.ok (firstLine out)

/-- The Go pattern `remoteURL, err := detectGitRemoteURL(…); if err != nil
then retErr = err` (on error the detect function returned the zero value
`""`, and `retErr` is overwritten; on success `retErr` keeps its previous
value — here `none` since this is the first non-fatal detection). -/
def remotePair (o : Option String) : String × Option GitErr :=
  match detectGitRemoteURL o with
  | Except.error e => ("", some e)
  | Except.ok s => (s, none)

/-- The Go pattern `hash, err := detectGitHash(…); if err != nil { retErr =
err }`, threading the previous `retErr`. -/
def hashPair (o : Option String) (prev : Option GitErr) :
    String × Option GitErr :=
  match detectGitHash o with
  | Except.error e => ("", some e)
  | Except.ok s => (s, prev)

/-- The Go pattern for `shortHash`, threading the previous `retErr`. -/
def shortHashPair (o : Option String) (prev : Option GitErr) :
    String × Option GitErr :=
  match detectGitShortHash o with
  | Except.error e => ("", some e)
  | Except.ok s => (s, prev)

/-- The Go pattern for `branch`, threading the previous `retErr`. -/
def branchPair (o : Option String) (prev : Option GitErr) :
    List String × Option GitErr :=
  match detectGitBranch o with
  | Except.error e => ([], some e)
  | Except.ok l => (l, prev)

/-- The Go pattern for `tags`: a detection error is swallowed (`tags =
nil`, `retErr` untouched). -/
def tagsVal (o : Option String) : List String :=
  match detectGitTags o with
  | Except.error _ => []
  | Except.ok l => l

/-- The Go pattern for `timestamp`, threading the previous `retErr`.  The
error branch is dead because `detectGitTimestamp` never fails. -/
def tsPair (o : Option String) (prev : Option GitErr) :
    String × Option GitErr :=
  match detectGitTimestamp o with
  | Except.error e => ("", some e)
  | Except.ok s => (s, prev)

/-- The non-fatal middle section of `Metadata` (lines 56–93 of the source):
remote URL, canonical URL, hash, short hash, branch, tags, timestamp, and
the threaded `retErr`.  The only fatal exit is the (dead) error return of
`ParseGitRemoteURL`; `gitURL` stays the zero value `""` when no remote URL
was detected. -/
structure MidFacts where
  remoteURL : String
  gitURL : String
  hash : String
  shortHash : String
  branch : List String
  tags : List String
  timestamp : String
  retErr : Option GitErr
deriving DecidableEq, Repr

def assembleMid (f : RawFacts) : Except GitErr MidFacts :=
  let rp := remotePair f.remoteOut
  match (if rp.1 = "" then Except.ok "" else ParseGitRemoteURL rp.1) with
  | Except.error e => Except.error e
  | Except.ok gitURL =>
    let hp := hashPair f.hashOut rp.2
    let sp := shortHashPair f.shortHashOut hp.2
    let bp := branchPair f.branchOut sp.2
    let tv := tagsVal f.tagsOut
    let tp := tsPair f.timestampOut bp.2
    Except.ok
      { remoteURL := rp.1, gitURL := gitURL, hash := hp.1,
        shortHash := sp.1, branch := bp.1, tags := tv,
        timestamp := tp.1, retErr := tp.2 }

/-- `gitRelDir(basePath, path)`: the Go function takes the queried
directory and resolves it with `filepath.Abs` and `filepath.EvalSymlinks`;
here the resolved result is the `resolved` input (`none` = one of those
two steps failed).  The base path must be absolute; the relative path is
computed by comparing `/`-separated segments, returning `("", false)` when
the resolved path is not below the base, and `"."` when it equals it. -/
def gitRelDir (basePath : String) (resolved : Option String) :
    Except GitErr (String × Bool) :=
  match resolved with
  | none => Except.error GitErr.pathResolution
  | some absPath2 =>
    if isAbs basePath = false then Except.error GitErr.baseNotAbs
    else
      let basePathSlash := toSlash basePath
      let pathSlash := toSlash absPath2
      let basePathParts := splitChar '/' basePathSlash
      let pathParts := splitChar '/' pathSlash
      if pathParts.length < basePathParts.length then Except.ok ("", false)
      else if prefixSegsMatch basePathParts pathParts = false then
        Except.ok ("", false)
      else
        let relPath := goJoin "/" (pathParts.drop basePathParts.length)
        if relPath = "" then Except.ok (".", true)
        else Except.ok (fromSlash relPath, true)

/-- `Metadata`: Go returns `(*GitMetadata, error)` where a partial result
and a non-fatal error may both be non-nil; this is `Except.ok (record,
retErr)`, while fatal exits are `Except.error`. -/
def Metadata (f : RawFacts) : Except GitErr (GitMetadata × Option GitErr) :=
  match detectGitBinary f.gitBinaryOk with
  | Except.error e => Except.error e
  | Except.ok _ =>
  match detectIsGitDir f.statusOut with
  | Except.error e => Except.error e
  | Except.ok _ =>
  match detectGitBaseDir f.baseDirOut with
  | Except.error e => Except.error e
  | Except.ok baseDir =>
  match assembleMid f with
  | Except.error e => Except.error e
  | Except.ok m =>
  match gitRelDir baseDir f.absEval with
  | Except.error e => Except.error e
  | Except.ok (_, false) => Except.error GitErr.nonRelPath
  | Except.ok (relDir, true) =>
    Except.ok
      ({ BaseDir := toSlash baseDir, RelDir := toSlash relDir,
         RemoteURL := m.remoteURL, GitURL := m.gitURL, Hash := m.hash,
         ShortHash := m.shortHash, Branch := m.branch, Tags := m.tags,
         Timestamp := m.timestamp }, m.retErr)

/-- Modelled from the spec: the `domain` reference types are not part of
this repository slice; per the spec a reference carries a remote-location
triple (git URL, tag, local path), an import ref, and a name identifying
the unit (`Target` / `Command` field of the respective Go struct). -/
structure RefData where
  GitURL : String
  Tag : String
  LocalPath : String
  ImportRef : String
  Name : String
deriving DecidableEq, Repr

/-- Modelled from the spec: `domain.Reference` is a Go interface — an open
set of implementations.  `target` and `command` are the two known concrete
variants (`domain.Target`, `domain.Command`); `other` stands for any
implementation outside that closed set (it still answers the interface
accessors, carrying the same data). -/
inductive Reference
  | target (d : RefData)
  | command (d : RefData)
  | other (d : RefData)
deriving DecidableEq, Repr

/-- Variant discriminator for a reference. -/
inductive RefVariant
  | target
  | command
  | other
deriving DecidableEq, Repr

def Reference.variant : Reference → RefVariant
  | .target _ => RefVariant.target
  | .command _ => RefVariant.command
  | .other _ => RefVariant.other

/-- Whether the reference is one of the two known concrete variants. -/
def Reference.isKnown : Reference → Bool
  | .target _ => true
  | .command _ => true
  | .other _ => false

def Reference.GetGitURL : Reference → String
  | .target d => d.GitURL
  | .command d => d.GitURL
  | .other d => d.GitURL

def Reference.GetTag : Reference → String
  | .target d => d.Tag
  | .command d => d.Tag
  | .other d => d.Tag

def Reference.GetLocalPath : Reference → String
  | .target d => d.LocalPath
  | .command d => d.LocalPath
  | .other d => d.LocalPath

def Reference.GetImportRef : Reference → String
  | .target d => d.ImportRef
  | .command d => d.ImportRef
  | .other d => d.ImportRef

def Reference.GetName : Reference → String
  | .target d => d.Name
  | .command d => d.Name
  | .other d => d.Name

/-- `ReferenceWithGitMeta(ref, gitMeta)`: returns `ref` unchanged when
`gitMeta` is nil or its canonical URL is empty; otherwise joins the
canonical URL with the relative directory (when non-empty), resolves the
selector (existing tag, else first metadata tag, else first branch, else
hash), and rebuilds a reference of the same variant.  The `default:
panic("not supported for this type")` branch of the Go type switch is
modelled as `none`; every other outcome is `some`. -/
def ReferenceWithGitMeta (ref : Reference) (gitMeta : Option GitMetadata) :
    Option Reference :=
  match gitMeta with
  | none => some ref
  | some gm =>
    if gm.GitURL = "" then some ref
    else
      let gitURL := if gm.RelDir = "" then gm.GitURL
                    else pathJoin gm.GitURL gm.RelDir
      let tag0 := ref.GetTag
      let localPath := ref.GetLocalPath
      let name := ref.GetName
      let importRef := ref.GetImportRef
      let tag :=
        if tag0 = "" then
          match gm.Tags with
          | t :: _ => t
          | [] =>
            match gm.Branch with
            | b :: _ => b
            | [] => gm.Hash
        else tag0
      match ref with
      | Reference.target _ =>
        some (Reference.target
          { GitURL := gitURL, Tag := tag, LocalPath := localPath,
            ImportRef := importRef, Name := name })
      | Reference.command _ =>
        some (Reference.command
          { GitURL := gitURL, Tag := tag, LocalPath := localPath,
            ImportRef := importRef, Name := name })
      | Reference.other _ => none

/-- Whether a string-valued detection fails: exactly when the command
failed or printed nothing (the error branches of `detectGitRemoteURL`,
`detectGitHash`, `detectGitShortHash`). -/
def stringQueryFails (o : Option String) : Bool :=
  match o with
  | none => true
  | some s => s = ""

/-- Whether the branch detection fails: only when the command itself
failed (`detectGitBranch` treats empty output as no branches). -/
def branchQueryFails (o : Option String) : Bool := o.isNone

/-- The last non-fatal detection failure in the order the source performs
the detections (remote URL, then hash, then short hash, then branch): the
error of the latest failing one, or `none` when all four succeed.  Tag and
timestamp detection failures never contribute. -/
def lastNonFatalErr (f : RawFacts) : Option GitErr :=
  if branchQueryFails f.branchOut then some GitErr.couldNotDetectGitBranch
  else if stringQueryFails f.shortHashOut then
    some GitErr.couldNotDetectGitShortHash
  else if stringQueryFails f.hashOut then some GitErr.couldNotDetectGitHash
  else if stringQueryFails f.remoteOut then some GitErr.couldNotDetectRemote
  else none

/-- The descendant relation `gitRelDir` decides: every `/`-separated
segment of `base` equals the corresponding segment of `p`, so `p` lies at
or below `base` in the directory tree. -/
def isDescendant (base p : String) : Bool :=
  prefixSegsMatch (splitChar '/' base) (splitChar '/' p)

/-- Sample metadata record, used to instantiate hypothesis-bearing
theorems at a concrete input. -/
def sampleMeta : GitMetadata :=
  { BaseDir := "/repo", RelDir := "sub",
    RemoteURL := "https://github.com/org/repo.git",
    GitURL := "github.com/org/repo", Hash := "abc", ShortHash := "ab12",
    Branch := ["main", ""], Tags := ["v1.0", ""], Timestamp := "100" }

/-- Raw facts where the remote-URL and branch queries fail and everything
else succeeds. -/
def factsPartial : RawFacts :=
  { gitBinaryOk := true, statusOut := some "", baseDirOut := some "/repo\n",
    remoteOut := none, hashOut := some "abc\n",
    shortHashOut := some "ab12\n", branchOut := none,
    tagsOut := some "v1\n", timestampOut := some "100\n",
    absEval := some "/repo/sub" }

/-- Raw facts where only the timestamp query fails. -/
def factsTsOnly : RawFacts :=
  { gitBinaryOk := true, statusOut := some "", baseDirOut := some "/repo\n",
    remoteOut := some "url\n", hashOut := some "abc\n",
    shortHashOut := some "ab12\n", branchOut := some "main\n",
    tagsOut := some "v1\n", timestampOut := none, absEval := some "/repo" }

/-- Raw facts whose resolved queried directory lies outside the detected
repository root. -/
def factsOutside : RawFacts :=
  { gitBinaryOk := true, statusOut := some "", baseDirOut := some "/repo\n",
    remoteOut := some "url\n", hashOut := some "abc\n",
    shortHashOut := some "ab\n", branchOut := some "main\n",
    tagsOut := some "", timestampOut := some "1\n",
    absEval := some "/elsewhere" }

/-- Raw facts whose configured remote URL is the degenerate `".git"`. -/
def factsDotGit : RawFacts :=
  { gitBinaryOk := true, statusOut := some "", baseDirOut := some "/repo\n",
    remoteOut := some ".git\n", hashOut := some "abc\n",
    shortHashOut := some "ab\n", branchOut := some "main\n",
    tagsOut := some "", timestampOut := some "111\n",
    absEval := some "/repo" }

/-- C1 (amended): `Clone` empties the remote URL, short hash and timestamp
fields and copies base dir, rel dir, canonical URL, hash, branch — and also
copies the tags (the claim's "empty tags" is refuted below). -/
theorem clone_field_contract (gm : GitMetadata) :
    gm.Clone.RemoteURL = "" ∧ gm.Clone.ShortHash = "" ∧
    gm.Clone.Timestamp = "" ∧ gm.Clone.BaseDir = gm.BaseDir ∧
    gm.Clone.RelDir = gm.RelDir ∧ gm.Clone.GitURL = gm.GitURL ∧
    gm.Clone.Hash = gm.Hash ∧ gm.Clone.Branch = gm.Branch ∧
    gm.Clone.Tags = gm.Tags :=
  ⟨rfl, rfl, rfl, rfl, rfl, rfl, rfl, rfl, rfl⟩

/-- C1 counterexample: `Clone` copies the `Tags` field (line 124 of the
source), so for a metadata value with a tag the clone's tags are not
empty, contradicting the claimed "empty tags". -/
theorem clone_copies_tags_cex :
    (GitMetadata.Clone
      { BaseDir := "/r", RelDir := ".", RemoteURL := "u", GitURL := "g",
        Hash := "h", ShortHash := "s", Branch := ["b"], Tags := ["v1.0"],
        Timestamp := "7" }).Tags ≠ [] := by decide

/-- C8: the three documented normalizations of `ParseGitRemoteURL`. -/
theorem parse_normalizes_examples :
    ParseGitRemoteURL "https://user@github.com/org/repo.git" =
      Except.ok "github.com/org/repo" ∧
    ParseGitRemoteURL "git@github.com:org/repo.git" =
      Except.ok "github.com/org/repo" ∧
    ParseGitRemoteURL "ssh://github.com/org/repo" =
      Except.ok "github.com/org/repo" :=
  ⟨rfl, rfl, rfl⟩

theorem breakOnL_eq_none_of_not_contains (a : Char) (sep l : List Char)
    (h : containsC a l = false) : breakOnL (a :: sep) l = none := by
  induction l with
  | nil => rfl
  | cons c cs ih =>
    simp only [containsC, Bool.or_eq_false_iff] at h
    obtain ⟨h1, h2⟩ := h
    have hac : (a == c) = false := by
      simp only [beq_eq_false_iff_ne] at h1 ⊢
      exact fun he => h1 he.symm
    simp [breakOnL, listStartsWith, hac, ih h2]

theorem replaceFirstC_eq_of_not_contains (a b : Char) (l : List Char)
    (h : containsC a l = false) : replaceFirstC a b l = l := by
  induction l with
  | nil => rfl
  | cons c cs ih =>
    simp only [containsC, Bool.or_eq_false_iff] at h
    obtain ⟨h1, h2⟩ := h
    simp [replaceFirstC, h1, ih h2]

/-- C5 (amended): the normalizer is the identity on every string with no
colon anywhere (hence no scheme separator and no SSH-shorthand colon), no
`@` (no user info), and no `.git` suffix.  The colon-freedom is needed:
the claim's weaker precondition is refuted below. -/
theorem parse_idempotent_on_colon_free (u : String)
    (h1 : containsC ':' u.data = false)
    (h2 : containsC '@' u.data = false)
    (h3 : isSuffixL (String.data ".git") u.data = false) :
    ParseGitRemoteURL u = Except.ok u := by
  have e1 : breakOnL (String.data "://") u.data = none := by
    rw [show String.data "://" = ':' :: String.data "//" from rfl]
    exact breakOnL_eq_none_of_not_contains ':' _ _ h1
  have e2 : breakOnL (String.data "@") u.data = none := by
    rw [show String.data "@" = '@' :: ([] : List Char) from rfl]
    exact breakOnL_eq_none_of_not_contains '@' _ _ h2
  have e3 : replaceFirstC ':' '/' u.data = u.data :=
    replaceFirstC_eq_of_not_contains ':' '/' _ h1
  have e4 : trimSuffixL (String.data ".git") u.data = u.data := by
    unfold trimSuffixL
    rw [h3]
    simp
  show Except.ok (parseGitRemoteURLCore u) = Except.ok u
  unfold parseGitRemoteURLCore
  simp only [e1, e2, e3, e4]

/-- C5 witness: the theorem applied to the canonical URL
`"github.com/org/repo"`. -/
theorem parse_idempotent_witness :
    containsC ':' (String.data "github.com/org/repo") = false ∧
    containsC '@' (String.data "github.com/org/repo") = false ∧
    isSuffixL (String.data ".git") (String.data "github.com/org/repo") =
      false ∧
    ParseGitRemoteURL "github.com/org/repo" =
      Except.ok "github.com/org/repo" :=
  ⟨rfl, rfl, rfl, parse_idempotent_on_colon_free _ rfl rfl rfl⟩

/-- C5 counterexample: `"a:b"` contains no `"://"` (no scheme), no `@`
(no user info) and has no `.git` suffix — it is canonical in the claim's
sense — yet the normalizer rewrites its colon, so it is not a fixed
point. -/
theorem parse_colon_not_fixed :
    breakOnL (String.data "://") (String.data "a:b") = none ∧
    containsC '@' (String.data "a:b") = false ∧
    isSuffixL (String.data ".git") (String.data "a:b") = false ∧
    ParseGitRemoteURL "a:b" = Except.ok "a/b" ∧ ("a/b" : String) ≠ "a:b" :=
  ⟨rfl, rfl, rfl, rfl, by decide⟩

/-- C2: for metadata with a non-empty canonical URL and a reference of one
of the program's two known variants, the rewritten reference's selector is
the reference's own tag when non-empty, else the first metadata tag, else
the first branch, else the full hash (possibly empty). -/
theorem rewrite_selector_priority (ref : Reference) (gm : GitMetadata)
    (hk : ref.isKnown = true) (hurl : gm.GitURL ≠ "") :
    (ReferenceWithGitMeta ref (some gm)).map Reference.GetTag =
      some (if ref.GetTag ≠ "" then ref.GetTag
            else
              match gm.Tags with
              | t :: _ => t
              | [] =>
                match gm.Branch with
                | b :: _ => b
                | [] => gm.Hash) := by
  cases ref with
  | other d => simp [Reference.isKnown] at hk
  | target d =>
    by_cases ht : d.Tag = "" <;>
      simp [ReferenceWithGitMeta, Reference.GetTag, hurl, ht]
  | command d =>
    by_cases ht : d.Tag = "" <;>
      simp [ReferenceWithGitMeta, Reference.GetTag, hurl, ht]

/-- C2 witness: with tag `"v1.0"` and branch `"main"` present and no
explicit selector, the selector is the tag. -/
theorem rewrite_selector_priority_witness :
    (Reference.target ⟨"", "", "lp", "ir", "nm"⟩).isKnown = true ∧
    sampleMeta.GitURL ≠ "" ∧
    (ReferenceWithGitMeta (Reference.target ⟨"", "", "lp", "ir", "nm"⟩)
        (some sampleMeta)).map Reference.GetTag = some "v1.0" :=
  ⟨rfl, by decide, by
    have h := rewrite_selector_priority
      (Reference.target ⟨"", "", "lp", "ir", "nm"⟩) sampleMeta rfl
      (by decide)
    simpa [sampleMeta, Reference.GetTag] using h⟩

/-- C6 (amended): the normalizer never fails; the rewrite never fails on
the two known reference variants; and for a reference of any variant the
rewrite returns the input unchanged when metadata is absent or its
canonical URL is empty.  (The original "never fails for any input" is
refuted below: an unknown variant with usable metadata panics.) -/
theorem rewrite_never_fails_amended :
    (∀ u : String, ∃ s, ParseGitRemoteURL u = Except.ok s) ∧
    (∀ ref : Reference, ReferenceWithGitMeta ref none = some ref) ∧
    (∀ (ref : Reference) (gm : GitMetadata), gm.GitURL = "" →
      ReferenceWithGitMeta ref (some gm) = some ref) ∧
    (∀ (d : RefData) (gm : GitMetadata),
      (ReferenceWithGitMeta (Reference.target d) (some gm)).isSome = true ∧
      (ReferenceWithGitMeta (Reference.command d) (some gm)).isSome =
        true) := by
  refine ⟨fun u => ⟨_, rfl⟩, fun ref => rfl, ?_, ?_⟩
  · intro ref gm h
    simp [ReferenceWithGitMeta, h]
  · intro d gm
    by_cases h : gm.GitURL = "" <;>
      constructor <;> simp [ReferenceWithGitMeta, h]

/-- C6 witness: the identity case at a concrete reference and metadata
with an empty canonical URL. -/
theorem rewrite_never_fails_witness :
    ReferenceWithGitMeta (Reference.target ⟨"", "", "lp", "ir", "nm"⟩)
      (some { BaseDir := "/r", RelDir := "sub", RemoteURL := "u",
              GitURL := "", Hash := "h", ShortHash := "s", Branch := ["b"],
              Tags := ["t"], Timestamp := "1" }) =
      some (Reference.target ⟨"", "", "lp", "ir", "nm"⟩) :=
  rewrite_never_fails_amended.2.2.1 _ _ rfl

/-- C6 counterexample: a reference outside the two known variants together
with metadata carrying a non-empty canonical URL drives the Go type switch
into `panic("not supported for this type")` (modelled as `none`), so the
rewrite does abort for some input. -/
theorem rewrite_panics_on_unknown_cex :
    ReferenceWithGitMeta (Reference.other ⟨"", "", "", "", "x"⟩)
      (some { BaseDir := "/r", RelDir := "", RemoteURL := "u",
              GitURL := "host/p", Hash := "", ShortHash := "", Branch := [],
              Tags := [], Timestamp := "0" }) = none := by
  simp [ReferenceWithGitMeta]

/-- C7: for metadata with a non-empty canonical URL and a reference of a
known variant, the rewrite keeps the variant and copies name, local path
and import ref; the git URL is the canonical URL path-joined with the
relative dir when that is non-empty, else the canonical URL alone. -/
theorem rewrite_frame_fields (ref : Reference) (gm : GitMetadata)
    (hk : ref.isKnown = true) (hurl : gm.GitURL ≠ "") :
    ∃ r, ReferenceWithGitMeta ref (some gm) = some r ∧
      r.variant = ref.variant ∧ r.GetName = ref.GetName ∧
      r.GetLocalPath = ref.GetLocalPath ∧
      r.GetImportRef = ref.GetImportRef ∧
      r.GetGitURL = (if gm.RelDir = "" then gm.GitURL
                     else pathJoin gm.GitURL gm.RelDir) := by
  cases ref with
  | other d => simp [Reference.isKnown] at hk
  | target d =>
    refine ⟨Reference.target
      { GitURL := if gm.RelDir = "" then gm.GitURL
                  else pathJoin gm.GitURL gm.RelDir,
        Tag := if d.Tag = "" then
                 (match gm.Tags with
                  | t :: _ => t
                  | [] =>
                    match gm.Branch with
                    | b :: _ => b
                    | [] => gm.Hash)
               else d.Tag,
        LocalPath := d.LocalPath, ImportRef := d.ImportRef,
        Name := d.Name }, ?_, rfl, rfl, rfl, rfl, rfl⟩
    simp [ReferenceWithGitMeta, hurl, Reference.GetTag,
      Reference.GetLocalPath, Reference.GetImportRef, Reference.GetName]
  | command d =>
    refine ⟨Reference.command
      { GitURL := if gm.RelDir = "" then gm.GitURL
                  else pathJoin gm.GitURL gm.RelDir,
        Tag := if d.Tag = "" then
                 (match gm.Tags with
                  | t :: _ => t
                  | [] =>
                    match gm.Branch with
                    | b :: _ => b
                    | [] => gm.Hash)
               else d.Tag,
        LocalPath := d.LocalPath, ImportRef := d.ImportRef,
        Name := d.Name }, ?_, rfl, rfl, rfl, rfl, rfl⟩
    simp [ReferenceWithGitMeta, hurl, Reference.GetTag,
      Reference.GetLocalPath, Reference.GetImportRef, Reference.GetName]

/-- C7 witness: the frame theorem applied at a concrete target reference
and the sample metadata. -/
theorem rewrite_frame_fields_witness :
    (Reference.target ⟨"g", "t", "lp", "ir", "nm"⟩).isKnown = true ∧
    sampleMeta.GitURL ≠ "" ∧
    (∃ r, ReferenceWithGitMeta
        (Reference.target ⟨"g", "t", "lp", "ir", "nm"⟩)
        (some sampleMeta) = some r ∧
      r.variant = (Reference.target ⟨"g", "t", "lp", "ir", "nm"⟩).variant ∧
      r.GetName = (Reference.target ⟨"g", "t", "lp", "ir", "nm"⟩).GetName ∧
      r.GetLocalPath =
        (Reference.target ⟨"g", "t", "lp", "ir", "nm"⟩).GetLocalPath ∧
      r.GetImportRef =
        (Reference.target ⟨"g", "t", "lp", "ir", "nm"⟩).GetImportRef ∧
      r.GetGitURL = (if sampleMeta.RelDir = "" then sampleMeta.GitURL
                     else pathJoin sampleMeta.GitURL sampleMeta.RelDir)) :=
  ⟨rfl, by decide,
    rewrite_frame_fields (Reference.target ⟨"g", "t", "lp", "ir", "nm"⟩)
      sampleMeta rfl (by decide)⟩

/-- C9: with a non-empty canonical URL the rewrite always returns a result
for the two known variants (buildable target, invokable command), and for
any reference value outside that closed set it hits the Go panic (modelled
as `none`) instead of returning a result. -/
theorem rewrite_total_on_closed_set :
    (∀ (d : RefData) (gm : GitMetadata), gm.GitURL ≠ "" →
      (∃ r, ReferenceWithGitMeta (Reference.target d) (some gm) = some r) ∧
      (∃ r, ReferenceWithGitMeta (Reference.command d) (some gm) =
        some r)) ∧
    (∀ (d : RefData) (gm : GitMetadata), gm.GitURL ≠ "" →
      ReferenceWithGitMeta (Reference.other d) (some gm) = none) := by
  constructor
  · intro d gm h
    constructor <;> rw [← Option.isSome_iff_exists] <;>
      simp [ReferenceWithGitMeta, h]
  · intro d gm h
    simp [ReferenceWithGitMeta, h]

/-- C9 witness: the panic half applied at a concrete unknown-variant
reference and the sample metadata. -/
theorem rewrite_total_on_closed_set_witness :
    sampleMeta.GitURL ≠ "" ∧
    ReferenceWithGitMeta (Reference.other ⟨"g", "t", "lp", "ir", "nm"⟩)
      (some sampleMeta) = none :=
  ⟨by decide,
    rewrite_total_on_closed_set.2 ⟨"g", "t", "lp", "ir", "nm"⟩ sampleMeta
      (by decide)⟩

/-- C10: the non-empty remote URL `".git"` normalizes to the empty string;
metadata assembled from such a remote carries a non-empty raw remote URL
and an empty canonical URL, and the rewrite with that metadata returns any
reference unchanged. -/
theorem normalizer_erases_remote :
    parseGitRemoteURLCore ".git" = "" ∧ (".git" : String) ≠ "" ∧
    (∃ gm, Metadata factsDotGit = Except.ok (gm, none) ∧
      gm.RemoteURL = ".git" ∧ gm.RemoteURL ≠ "" ∧ gm.GitURL = "" ∧
      (∀ ref : Reference, ReferenceWithGitMeta ref (some gm) = some ref)) := by
  refine ⟨rfl, by decide,
    ⟨{ BaseDir := "/repo", RelDir := ".", RemoteURL := ".git", GitURL := "",
       Hash := "abc", ShortHash := "ab", Branch := ["main", ""], Tags := [],
       Timestamp := "111" }, rfl, rfl, by decide, rfl, ?_⟩⟩
  intro ref
  simp [ReferenceWithGitMeta]

theorem remotePair_snd (o : Option String) :
    (remotePair o).2 =
      if stringQueryFails o then some GitErr.couldNotDetectRemote
      else none := by
  cases o with
  | none => rfl
  | some s =>
    by_cases h : s = "" <;>
      simp [remotePair, detectGitRemoteURL, stringQueryFails, h]

theorem hashPair_snd (o : Option String) (prev : Option GitErr) :
    (hashPair o prev).2 =
      if stringQueryFails o then some GitErr.couldNotDetectGitHash
      else prev := by
  cases o with
  | none => rfl
  | some s =>
    by_cases h : s = "" <;>
      simp [hashPair, detectGitHash, stringQueryFails, h]

theorem shortHashPair_snd (o : Option String) (prev : Option GitErr) :
    (shortHashPair o prev).2 =
      if stringQueryFails o then some GitErr.couldNotDetectGitShortHash
      else prev := by
  cases o with
  | none => rfl
  | some s =>
    by_cases h : s = "" <;>
      simp [shortHashPair, detectGitShortHash, stringQueryFails, h]

theorem branchPair_snd (o : Option String) (prev : Option GitErr) :
    (branchPair o prev).2 =
      if branchQueryFails o then some GitErr.couldNotDetectGitBranch
      else prev := by
  cases o with
  | none => rfl
  | some s =>
    by_cases h : s = "" <;>
      simp [branchPair, detectGitBranch, branchQueryFails, h]

theorem tsPair_snd (o : Option String) (prev : Option GitErr) :
    (tsPair o prev).2 = prev := by
  cases o with
  | none => rfl
  | some s =>
    by_cases h : s = "" <;> simp [tsPair, detectGitTimestamp, h]

theorem remotePair_fst_of_fail (o : Option String)
    (h : stringQueryFails o = true) : (remotePair o).1 = "" := by
  cases o with
  | none => rfl
  | some s =>
    simp only [stringQueryFails, decide_eq_true_eq] at h
    simp [remotePair, detectGitRemoteURL, h]

theorem hashPair_fst_of_fail (o : Option String) (prev : Option GitErr)
    (h : stringQueryFails o = true) : (hashPair o prev).1 = "" := by
  cases o with
  | none => rfl
  | some s =>
    simp only [stringQueryFails, decide_eq_true_eq] at h
    simp [hashPair, detectGitHash, h]

theorem shortHashPair_fst_of_fail (o : Option String) (prev : Option GitErr)
    (h : stringQueryFails o = true) : (shortHashPair o prev).1 = "" := by
  cases o with
  | none => rfl
  | some s =>
    simp only [stringQueryFails, decide_eq_true_eq] at h
    simp [shortHashPair, detectGitShortHash, h]

theorem branchPair_fst_of_fail (o : Option String) (prev : Option GitErr)
    (h : branchQueryFails o = true) : (branchPair o prev).1 = [] := by
  cases o with
  | none => rfl
  | some s => simp [branchQueryFails] at h

/-- `assembleMid` never takes its fatal exit: the normalizer always
succeeds, so the result is the record of the threaded pair computations. -/
theorem assembleMid_eq (f : RawFacts) :
    assembleMid f = Except.ok
      { remoteURL := (remotePair f.remoteOut).1,
        gitURL := if (remotePair f.remoteOut).1 = "" then ""
                  else parseGitRemoteURLCore (remotePair f.remoteOut).1,
        hash := (hashPair f.hashOut (remotePair f.remoteOut).2).1,
        shortHash := (shortHashPair f.shortHashOut
          (hashPair f.hashOut (remotePair f.remoteOut).2).2).1,
        branch := (branchPair f.branchOut
          (shortHashPair f.shortHashOut
            (hashPair f.hashOut (remotePair f.remoteOut).2).2).2).1,
        tags := tagsVal f.tagsOut,
        timestamp := (tsPair f.timestampOut
          (branchPair f.branchOut
            (shortHashPair f.shortHashOut
              (hashPair f.hashOut (remotePair f.remoteOut).2).2).2).2).1,
        retErr := (tsPair f.timestampOut
          (branchPair f.branchOut
            (shortHashPair f.shortHashOut
              (hashPair f.hashOut (remotePair f.remoteOut).2).2).2).2).2 } := by
  unfold assembleMid
  by_cases h : (remotePair f.remoteOut).1 = "" <;>
    simp [h, ParseGitRemoteURL]

/-- The non-fatal middle section always yields a record; its threaded
error is the last failure among remote URL, hash, short hash and branch,
and a failed field keeps its zero value (tags and timestamp failures are
silent, with defaults `[]` and `"0"`). -/
theorem assembleMid_spec (f : RawFacts) :
    ∃ m, assembleMid f = Except.ok m ∧ m.retErr = lastNonFatalErr f ∧
      (stringQueryFails f.remoteOut = true → m.remoteURL = "") ∧
      (stringQueryFails f.hashOut = true → m.hash = "") ∧
      (stringQueryFails f.shortHashOut = true → m.shortHash = "") ∧
      (branchQueryFails f.branchOut = true → m.branch = []) ∧
      (f.tagsOut = none → m.tags = []) ∧
      (f.timestampOut = none → m.timestamp = "0") := by
  refine ⟨_, assembleMid_eq f, ?_, ?_, ?_, ?_, ?_, ?_, ?_⟩
  · simp only [tsPair_snd, branchPair_snd, shortHashPair_snd, hashPair_snd,
      remotePair_snd, lastNonFatalErr]
  · intro h
    simpa using remotePair_fst_of_fail f.remoteOut h
  · intro h
    simpa using hashPair_fst_of_fail f.hashOut _ h
  · intro h
    simpa using shortHashPair_fst_of_fail f.shortHashOut _ h
  · intro h
    simpa using branchPair_fst_of_fail f.branchOut _ h
  · intro h
    simp [tagsVal, detectGitTags, h]
  · intro h
    simp [tsPair, detectGitTimestamp, h]

/-- C3 (amended): whenever the fatal preconditions hold (binary present,
a git dir, base dir detected, relative dir computed), assembly returns a
populated record no matter which of the remote-URL, hash, short-hash or
branch detections fail, together with the error of the last such failure
in detection order (or no error when those four succeed); a tag detection
failure is silently `[]`, and a timestamp detection failure is silently
`"0"` — the timestamp, contrary to the claim, never contributes an
error. -/
theorem metadata_partial_failures (f : RawFacts) (bd rd : String)
    (hgb : f.gitBinaryOk = true) (hst : f.statusOut.isSome = true)
    (hbd : detectGitBaseDir f.baseDirOut = Except.ok bd)
    (hrel : gitRelDir bd f.absEval = Except.ok (rd, true)) :
    ∃ gm, Metadata f = Except.ok (gm, lastNonFatalErr f) ∧
      gm.BaseDir = bd ∧ gm.RelDir = rd ∧
      (stringQueryFails f.remoteOut = true → gm.RemoteURL = "") ∧
      (stringQueryFails f.hashOut = true → gm.Hash = "") ∧
      (stringQueryFails f.shortHashOut = true → gm.ShortHash = "") ∧
      (branchQueryFails f.branchOut = true → gm.Branch = []) ∧
      (f.tagsOut = none → gm.Tags = []) ∧
      (f.timestampOut = none → gm.Timestamp = "0") := by
  obtain ⟨st, hst2⟩ := Option.isSome_iff_exists.mp hst
  obtain ⟨m, hm, h1, h2, h3, h4, h5, h6, h7⟩ := assembleMid_spec f
  refine ⟨{ BaseDir := toSlash bd, RelDir := toSlash rd,
            RemoteURL := m.remoteURL, GitURL := m.gitURL, Hash := m.hash,
            ShortHash := m.shortHash, Branch := m.branch, Tags := m.tags,
            Timestamp := m.timestamp }, ?_, rfl, rfl, h2, h3, h4, h5, h6, h7⟩
  rw [← h1]
  simp only [Metadata, hgb, hst2, hbd, hm, hrel, detectGitBinary,
    detectIsGitDir, if_true]

/-- C3 witness: the theorem applied where the remote-URL and branch
queries fail; the representative error is the branch one (the last
failure in detection order). -/
theorem metadata_partial_failures_witness :
    (factsPartial.gitBinaryOk = true) ∧
    (factsPartial.statusOut.isSome = true) ∧
    (detectGitBaseDir factsPartial.baseDirOut = Except.ok "/repo") ∧
    (gitRelDir "/repo" factsPartial.absEval = Except.ok ("sub", true)) ∧
    (∃ gm, Metadata factsPartial =
        Except.ok (gm, lastNonFatalErr factsPartial) ∧
      gm.BaseDir = "/repo" ∧ gm.RelDir = "sub" ∧
      (stringQueryFails factsPartial.remoteOut = true → gm.RemoteURL = "") ∧
      (stringQueryFails factsPartial.hashOut = true → gm.Hash = "") ∧
      (stringQueryFails factsPartial.shortHashOut = true →
        gm.ShortHash = "") ∧
      (branchQueryFails factsPartial.branchOut = true → gm.Branch = []) ∧
      (factsPartial.tagsOut = none → gm.Tags = []) ∧
      (factsPartial.timestampOut = none → gm.Timestamp = "0")) :=
  ⟨rfl, rfl, rfl, rfl,
    metadata_partial_failures factsPartial "/repo" "sub" rfl rfl rfl rfl⟩

/-- C3 counterexample: with every query succeeding except the timestamp
one, assembly returns a record with the default timestamp `"0"` and no
error at all — the claimed representative error for a timestamp detection
failure does not exist. -/
theorem metadata_timestamp_silent_cex :
    factsTsOnly.timestampOut = none ∧
    Metadata factsTsOnly = Except.ok
      ({ BaseDir := "/repo", RelDir := ".", RemoteURL := "url",
         GitURL := "url", Hash := "abc", ShortHash := "ab12",
         Branch := ["main", ""], Tags := ["v1", ""], Timestamp := "0" },
       none) :=
  ⟨rfl, rfl⟩

theorem gitRelDir_ok_true_inv (bd : String) (o : Option String)
    (rd : String) (h : gitRelDir bd o = Except.ok (rd, true)) :
    ∃ d, o = some d ∧ isDescendant bd d = true ∧ (d = bd → rd = ".") := by
  cases o with
  | none => simp [gitRelDir] at h
  | some d =>
    simp only [gitRelDir] at h
    split_ifs at h with h1 h2 h3 h4
    · simp at h
    · simp at h
    · simp only [Except.ok.injEq, Prod.mk.injEq, and_true] at h
      have h3' : isDescendant bd d = true := by
        simpa [isDescendant, toSlash] using h3
      exact ⟨d, rfl, h3', fun _ => h.symm⟩
    · simp only [Except.ok.injEq, Prod.mk.injEq, and_true] at h
      refine ⟨d, rfl, ?_, ?_⟩
      · simpa [isDescendant, toSlash] using h3
      · intro hdb
        subst hdb
        rw [List.drop_length] at h4
        exact absurd rfl h4

theorem gitRelDir_not_desc (bd d rd : String)
    (hnd : isDescendant bd d = false) :
    gitRelDir bd (some d) ≠ Except.ok (rd, true) := by
  intro h
  simp only [gitRelDir] at h
  split_ifs at h with h1 h2 h3 h4
  · simp at h
  · simp at h
  · have h3' : isDescendant bd d = true := by
      simpa [isDescendant, toSlash] using h3
    rw [h3'] at hnd
    exact absurd hnd (by simp)
  · have h3' : isDescendant bd d = true := by
      simpa [isDescendant, toSlash] using h3
    rw [h3'] at hnd
    exact absurd hnd (by simp)

theorem metadata_ok_inv (f : RawFacts) (gm : GitMetadata)
    (r : Option GitErr) (h : Metadata f = Except.ok (gm, r)) :
    ∃ bd rd, detectGitBaseDir f.baseDirOut = Except.ok bd ∧
      gitRelDir bd f.absEval = Except.ok (rd, true) ∧
      gm.BaseDir = bd ∧ gm.RelDir = rd := by
  unfold Metadata at h
  split at h
  · simp at h
  split at h
  · simp at h
  split at h
  · simp at h
  rename_i baseDir hbd
  split at h
  · simp at h
  rename_i m hm
  split at h
  · simp at h
  · simp at h
  rename_i relDir hrel
  simp only [Except.ok.injEq, Prod.mk.injEq] at h
  obtain ⟨hgm, hr⟩ := h
  refine ⟨baseDir, relDir, hbd, hrel, ?_, ?_⟩
  · rw [← hgm]
    rfl
  · rw [← hgm]
    rfl

/-- C4: whenever assembly succeeds, the queried directory (absolute,
symlink-resolved) lies at or below the detected repository root — segment
by segment — and equals `"."` as `relDir` when it coincides with the root;
and when the resolved directory is not a descendant of the root, assembly
returns an error and no record. -/
theorem metadata_relDir_descendant :
    (∀ (f : RawFacts) (gm : GitMetadata) (r : Option GitErr),
      Metadata f = Except.ok (gm, r) →
      ∃ d bd, f.absEval = some d ∧
        detectGitBaseDir f.baseDirOut = Except.ok bd ∧ gm.BaseDir = bd ∧
        isDescendant bd d = true ∧ (d = bd → gm.RelDir = ".")) ∧
    (∀ (f : RawFacts) (d bd : String), f.absEval = some d →
      detectGitBaseDir f.baseDirOut = Except.ok bd →
      isDescendant bd d = false →
      ∀ (gm : GitMetadata) (r : Option GitErr),
        Metadata f ≠ Except.ok (gm, r)) := by
  constructor
  · intro f gm r h
    obtain ⟨bd, rd, hbd, hrel, hB, hR⟩ := metadata_ok_inv f gm r h
    obtain ⟨d, hd, hdesc, hroot⟩ := gitRelDir_ok_true_inv bd f.absEval rd hrel
    refine ⟨d, bd, hd, hbd, hB, hdesc, fun hdb => ?_⟩
    rw [hR]
    exact hroot hdb
  · intro f d bd hae hbd hnd gm r h
    obtain ⟨bd2, rd, hbd2, hrel, _, _⟩ := metadata_ok_inv f gm r h
    rw [hbd] at hbd2
    obtain rfl : bd = bd2 := Except.ok.inj hbd2
    rw [hae] at hrel
    exact gitRelDir_not_desc bd d rd hnd hrel

/-- C4 witness: a resolved directory outside the detected root makes
assembly fail (applied at a concrete instance). -/
theorem metadata_relDir_descendant_witness :
    (factsOutside.absEval = some "/elsewhere") ∧
    (detectGitBaseDir factsOutside.baseDirOut = Except.ok "/repo") ∧
    (isDescendant "/repo" "/elsewhere" = false) ∧
    Metadata factsOutside ≠ Except.ok (sampleMeta, none) :=
  ⟨rfl, rfl, by decide,
    metadata_relDir_descendant.2 factsOutside "/elsewhere" "/repo" rfl rfl
      (by decide) sampleMeta none⟩

end Gitutil
